import Mathlib

/-!
Verification of the websocket session layer in `websockets/remote.go`
(the `Remote` type: arbitration run loop, read/write pumps, reconnect,
close, and the request drivers built on top of them).

Each Go function the claims touch is shallowly embedded as an executable
Lean definition; channels are modelled as explicit queues or rendezvous
conditions, goroutine interleavings as labelled transition systems.
-/

namespace Websockets

/-- Terminal outcome invoked on a command (`Syncer`): `Done()` or
`Fail(reason)`. -/
inductive Completion where
  | done : Completion
  | fail : String → Completion
  deriving DecidableEq, Repr

/-- The disconnect reason used by the run loop teardown and by
`reConnect` (`"ws: server disconnected"` in the source). -/
def serverDisconnectedReason : String := "ws: server disconnected"

/-- The timeout reason used when a command timeout fires
(`"command timed out"` in the source). -/
def commandTimedOutReason : String := "command timed out"

/-!
## Arbitration loop state

`run` owns `pending : map[uint64]Syncer` and
`timeoutCancellers : map[uint64]chan struct{}`.  Commands are opaque to
the loop apart from their `Id`, so both tables are modelled as lists of
ids (the `Syncer` values carry no information the routing logic reads).
-/

/-- The mutable state owned by the `run` loop: the pending table and the
timeout-canceller table, both keyed by command id. -/
structure LoopState where
  pending : List Nat
  timeoutCancellers : List Nat
  deriving DecidableEq, Repr

/-- Whether the loop keeps selecting (`Running`) or returns and executes
its deferred teardown (`Draining`). -/
inductive LoopStatus where
  | running : LoopStatus
  | draining : LoopStatus
  deriving DecidableEq, Repr

/-!
## Timeout case of the run loop

```go
case id := <-timeout:
    if cmd, exists := pending[id]; exists {
        delete(pending, id)
        cmd.Fail("command timed out")
        return
    }
    delete(timeoutCancellers, id)
```
-/

/-- One step of the `case id := <-timeout` branch of `run`: returns the
new state, the completions invoked on the command with that id, and
whether the loop keeps running. -/
def handleTimeout (s : LoopState) (id : Nat) :
    LoopState × List Completion × LoopStatus :=
  if id ∈ s.pending then
    ({ s with pending := s.pending.erase id },
     [Completion.fail commandTimedOutReason], LoopStatus.draining)
  else
    ({ s with timeoutCancellers := s.timeoutCancellers.erase id },
     [], LoopStatus.running)

/-!
## Inbound case of the run loop

```go
case in, ok := <-inbound:
    if !ok { return }
    if err := json.Unmarshal(in, &response); err != nil { continue }
    factory, ok := streamMessageFactory[response.Type]
    if ok {
        cmd := factory()
        if err := json.Unmarshal(in, &cmd); err != nil { continue }
        r.Incoming <- cmd
        continue
    }
    cmd, ok := pending[response.Id]
    if !ok { glog.Errorf("Unexpected message: ..."); continue }
    delete(pending, response.Id)
    if canceller, exists := timeoutCancellers[response.Id]; exists {
        canceller <- struct{}{}
        delete(timeoutCancellers, response.Id)
    }
    if err := json.Unmarshal(in, &cmd); err != nil {
        cmd.Fail("error occured while unmarshalling")
        continue
    }
    cmd.Done()
```

An inbound frame is modelled by the observable results of the three
`json.Unmarshal` calls the branch can make on it: whether the envelope
parse succeeds, the `Type` and `Id` fields it yields, and whether the
typed decode (stream payload or command reply) succeeds.  The
`streamMessageFactory` registry lives in a file outside `remote.go`; the
routing logic only tests membership of `response.Type` in it, so it is
passed in as the list of registered type names.
-/

/-- An inbound frame as the run loop observes it: envelope-parse result,
envelope `Type` and `Id` fields, and the typed-decode result. -/
structure InMsg where
  envOk : Bool
  type : String
  id : Nat
  typedOk : Bool
  deriving DecidableEq, Repr

/-- What the inbound branch did with a frame. -/
inductive InboundOutcome where
  /-- envelope-level `json.Unmarshal` failed: logged, frame dropped -/
  | droppedEnvelopeDecodeError : InboundOutcome
  /-- registered stream type, typed decode ok: sent on `r.Incoming` -/
  | forwardedIncoming : InboundOutcome
  /-- registered stream type, typed decode failed: logged, dropped -/
  | droppedStreamDecodeError : InboundOutcome
  /-- no factory, id not pending: logged as "Unexpected message" -/
  | droppedUnexpected (id : Nat) : InboundOutcome
  /-- no factory, id pending, reply decode failed: `cmd.Fail` -/
  | completedFailDecode (id : Nat) : InboundOutcome
  /-- no factory, id pending, reply decoded: `cmd.Done()` -/
  | completedDone (id : Nat) : InboundOutcome
  deriving DecidableEq, Repr

/-- One step of the `case in, ok := <-inbound` branch of `run` (for a
frame actually received, i.e. the channel is not closed), given the
registered stream-type names.  Returns the new table state, the outcome,
and whether the loop keeps running.  The canceller signalling performed
in the pending branch is modelled separately (see the race model below);
here only its table effect is kept. -/
def handleInbound (registry : List String) (s : LoopState) (m : InMsg) :
    LoopState × InboundOutcome × LoopStatus :=
  if m.envOk = false then
    (s, InboundOutcome.droppedEnvelopeDecodeError, LoopStatus.running)
  else if m.type ∈ registry then
    if m.typedOk then
      (s, InboundOutcome.forwardedIncoming, LoopStatus.running)
    else
      (s, InboundOutcome.droppedStreamDecodeError, LoopStatus.running)
  else if m.id ∈ s.pending then
    let s' : LoopState :=
      { pending := s.pending.erase m.id,
        timeoutCancellers := s.timeoutCancellers.erase m.id }
    if m.typedOk then
      (s', InboundOutcome.completedDone m.id, LoopStatus.running)
    else
      (s', InboundOutcome.completedFailDecode m.id, LoopStatus.running)
  else
    (s, InboundOutcome.droppedUnexpected m.id, LoopStatus.running)

/-!
## Teardown (the deferred block of `run`)

```go
defer func() {
    close(outbound)
    for _, c := range pending {
        c.Fail("ws: server disconnected")
    }
    for range inbound {
    }
    if r.reConn && !r.shutdown {
        go r.reConnect()
    } else {
        close(r.Incoming)
    }
}()
```
-/

/-- What the teardown decides to do after draining. -/
inductive TeardownNext where
  | scheduleReconnect : TeardownNext
  | closeIncoming : TeardownNext
  deriving DecidableEq, Repr

/-- Model of the `for _, c := range pending` loop of the teardown: fail
every remaining pending command with the disconnect reason, returning
the completion invoked on each id. -/
def failAllPending : List Nat → List (Nat × Completion)
  | [] => []
  | id :: rest =>
      (id, Completion.fail serverDisconnectedReason) :: failAllPending rest

/-- Model of the `for range inbound` loop of the teardown: drain queued
inbound frames until the channel closes, dropping each. Returns how many
frames were discarded. -/
def drainInbound : List InMsg → Nat
  | [] => 0
  | _ :: rest => drainInbound rest + 1

/-- Result of one execution of the deferred teardown block. -/
structure TeardownResult where
  outboundClosed : Bool
  completions : List (Nat × Completion)
  drained : Nat
  next : TeardownNext
  deriving DecidableEq, Repr

/-- The deferred teardown of `run`, executed once when the loop returns:
close `outbound`, fail every remaining pending entry, drain `inbound`
until it closes, then schedule a reconnect or close `Incoming`. -/
def runTeardown (pending : List Nat) (inboundQueued : List InMsg)
    (reConn shutdown : Bool) : TeardownResult :=
  { outboundClosed := true
  , completions := failAllPending pending
  , drained := drainInbound inboundQueued
  , next :=
      if reConn && !shutdown then TeardownNext.scheduleReconnect
      else TeardownNext.closeIncoming }

/-!
## Write pump

```go
func (r *Remote) writePump(outbound <-chan interface{}) {
    ticker := time.NewTicker(pingPeriod)
    defer ticker.Stop()
    for {
        select {
        case message, ok := <-outbound:
            if !ok {
                r.ws.WriteMessage(websocket.CloseMessage, []byte{})
                return
            }
            b, err := json.Marshal(message)
            if err != nil { glog.Errorln(err); continue }
            if err := r.ws.WriteMessage(websocket.TextMessage, b); err != nil {
                glog.Errorln(err)
                return
            }
        case <-ticker.C:
            if err := r.ws.WriteMessage(websocket.PingMessage, []byte{}); err != nil {
                glog.Errorln(err)
                return
            }
        }
    }
}
```

The pump is driven by the sequence of select outcomes: an outbound
message arriving (with the results of its `json.Marshal` and of the
transport `WriteMessage`), the outbound channel closing, or a ticker
tick (with its `WriteMessage` result).
-/

/-- One select outcome observed by the write pump. -/
inductive WPEvent where
  /-- outbound message received: marshal result, then send result -/
  | outMsg (marshalOk sendOk : Bool) : WPEvent
  /-- outbound channel closed by the arbitration loop -/
  | outClosed : WPEvent
  /-- keepalive ticker fired: ping send result -/
  | tick (sendOk : Bool) : WPEvent
  deriving DecidableEq, Repr

/-- A frame the pump hands to `ws.WriteMessage` successfully. -/
inductive Frame where
  | text : Frame
  | ping : Frame
  | close : Frame
  deriving DecidableEq, Repr

/-- Why the write pump returned. -/
inductive WPTermination where
  | channelClosed : WPTermination
  | sendFailure : WPTermination
  | pingFailure : WPTermination
  deriving DecidableEq, Repr

/-- The write pump over a sequence of select outcomes: the frames it
successfully wrote, and why it terminated (`none` while the event list
runs out with the pump still looping). -/
def writePump : List WPEvent → List Frame × Option WPTermination
  | [] => ([], none)
  | WPEvent.outClosed :: _ =>
      ([Frame.close], some WPTermination.channelClosed)
  | WPEvent.outMsg marshalOk sendOk :: rest =>
      if marshalOk = false then writePump rest
      else if sendOk then
        let r := writePump rest
        (Frame.text :: r.1, r.2)
      else ([], some WPTermination.sendFailure)
  | WPEvent.tick sendOk :: rest =>
      if sendOk then
        let r := writePump rest
        (Frame.ping :: r.1, r.2)
      else ([], some WPTermination.pingFailure)

/-!
## Paginated account-transactions driver

```go
func (r *Remote) accountTx(account data.Account, c chan *data.TransactionWithMetaData,
        pageSize int, minLedger, maxLedger int64) {
    defer close(c)
    cmd := newAccountTxCommand(account, pageSize, nil, minLedger, maxLedger)
    for ; ; cmd = newAccountTxCommand(account, pageSize, cmd.Result.Marker, minLedger, maxLedger) {
        r.outgoing <- cmd
        <-cmd.Ready
        if cmd.CommandError != nil { return }
        for _, tx := range cmd.Result.Transactions {
            c <- tx
        }
        if cmd.Result.Marker == nil { return }
    }
}
```

One iteration submits one `account_tx` command and consumes one page
result.  A page result is the completed command as the driver reads it:
whether `CommandError` was set, the transactions of the page, and the
continuation marker.  Transactions and markers are opaque (`Nat`).
-/

/-- The completed result of one `account_tx` command as `accountTx`
reads it. -/
structure AccountTxPage where
  err : Bool
  transactions : List Nat
  marker : Option Nat
  deriving DecidableEq, Repr

/-- The `accountTx` driver over the sequence of page results its
successive commands complete with.  Returns `some (txs, k)` — the
transactions delivered on the channel in order and the number of
commands submitted — when the driver returns (and hence, via its
`defer`, closes the channel); `none` when the supplied page list is
exhausted with the driver still waiting on a command. -/
def accountTx : List AccountTxPage → Option (List Nat × Nat)
  | [] => none
  | p :: rest =>
      if p.err then some ([], 1)
      else
        match p.marker with
        | none => some (p.transactions, 1)
        | some _ =>
            match accountTx rest with
            | none => none
            | some (txs, k) => some (p.transactions ++ txs, k + 1)

/-!
## SubmitBatch

```go
func (r *Remote) SubmitBatch(txs []data.Transaction) ([]*SubmitResult, error) {
    commands := make([]*SubmitCommand, len(txs))
    results := make([]*SubmitResult, len(txs))
    for i := range txs {
        _, raw, err := data.Raw(txs[i])
        if err != nil {
            return nil, err
        }
        cmd := &SubmitCommand{ Command: newCommand("submit"), TxBlob: ... }
        r.outgoing <- cmd
        commands[i] = cmd
    }
    for i := range commands {
        <-commands[i].Ready
        results[i] = commands[i].Result
    }
    return results, nil
}
```

A transaction is modelled by whether `data.Raw` succeeds on it.  Each
enqueued command eventually completes; a completed command's `Result`
field is populated only on the `Done` path (a `Fail` leaves it `nil`),
so the completion list maps to the results slice via `resultOf`.
-/

/-- A transaction as `SubmitBatch` observes it: whether `data.Raw`
serialization succeeds. -/
structure BatchTx where
  rawOk : Bool
  deriving DecidableEq, Repr

/-- The `Result` field a completed `SubmitCommand` carries: populated
(opaquely) when the command was `Done`, `nil` when it was `Fail`ed. -/
def resultOf : Completion → Option Unit
  | Completion.done => some ()
  | Completion.fail _ => none

/-- The first enqueue loop of `SubmitBatch`: walks the transactions,
enqueueing a command per transaction that serializes; returns
`some n` when serialization fails with `n` commands already enqueued
(the early `return nil, err`), `none` when every transaction
serialized. -/
def submitBatchEnqueue : List BatchTx → Nat → Option Nat
  | [], _ => none
  | t :: rest, n =>
      if t.rawOk then submitBatchEnqueue rest (n + 1) else some n

/-- What `SubmitBatch` returns. -/
inductive SubmitBatchResult where
  /-- the early `return nil, err`, with that many commands already
  enqueued -/
  | marshalError (enqueued : Nat) : SubmitBatchResult
  /-- the final `return results, nil` -/
  | ok (results : List (Option Unit)) : SubmitBatchResult
  deriving DecidableEq, Repr

/-- `SubmitBatch` over the transactions and the completions its enqueued
commands eventually receive (one per command, in index order). -/
def SubmitBatch (txs : List BatchTx) (completions : List Completion) :
    SubmitBatchResult :=
  match submitBatchEnqueue txs 0 with
  | some n => SubmitBatchResult.marshalError n
  | none => SubmitBatchResult.ok (completions.map resultOf)

/-!
## Reply / timeout race for one request

The run loop cancels a timeout watcher by a blocking send on an
unbuffered channel:

```go
commandTimeoutFunc := func(commandID uint64, timeoutCanceller chan struct{}) {
    timer := time.NewTimer(time.Minute)
    select {
    case <-timeoutCanceller:
        timer.Stop()
        return
    case <-timer.C:
        timeout <- commandID
        return
    }
}
...
// inbound reply for a pending id:
delete(pending, response.Id)
if canceller, exists := timeoutCancellers[response.Id]; exists {
    canceller <- struct{}{}            // unbuffered, blocking send
    delete(timeoutCancellers, response.Id)
}
... cmd.Done()
```

Both `canceller` and `timeout` are unbuffered (`make(chan struct{})`,
`make(chan uint64)`): a send on either completes only by rendezvous with
a receiver.  Once the watcher's select commits to the `<-timer.C` arm it
stops receiving on `canceller` and blocks on `timeout <- commandID`,
which only the run loop can receive.  The interleaving of the loop and
one watcher for a single request id X, with a reply for X queued on
`inbound`, is modelled as a labelled transition system.
-/

/-- State of the timeout watcher goroutine for request X. -/
inductive WatcherSt where
  /-- in its select, receiving on `timeoutCanceller` and `timer.C` -/
  | waiting : WatcherSt
  /-- timer fired: committed to `timeout <- commandID`, blocked until
  the run loop receives -/
  | firedBlocked : WatcherSt
  /-- returned -/
  | exited : WatcherSt
  deriving DecidableEq, Repr

/-- State of the run loop goroutine in this fragment. -/
inductive LoopSt where
  /-- at the top of its select -/
  | selecting : LoopSt
  /-- blocked in the unbuffered `canceller` send with no receiver -/
  | blockedCancel : LoopSt
  /-- returned out of the loop into the deferred teardown -/
  | returnedDraining : LoopSt
  deriving DecidableEq, Repr

/-- Joint state of the run loop and the watcher of request X. -/
structure RaceState where
  loopSt : LoopSt
  watcherSt : WatcherSt
  /-- X present in `pending` -/
  pendingHasX : Bool
  /-- X present in `timeoutCancellers` -/
  cancellerInTable : Bool
  /-- a decodable reply for X queued on `inbound` -/
  replyQueued : Bool
  /-- completions invoked on request X so far, in order -/
  completions : List Completion
  deriving DecidableEq, Repr

/-- Scheduler choices in the race model. -/
inductive RaceLabel where
  /-- the watcher's one-minute timer fires: its select commits to the
  `timer.C` arm and it blocks sending on `timeout` -/
  | timerFires : RaceLabel
  /-- the loop's select takes `id := <-timeout`, rendezvousing with the
  blocked watcher, and runs the timeout branch -/
  | loopRecvTimeout : RaceLabel
  /-- the loop's select takes the queued reply from `inbound` and runs
  the inbound branch for X -/
  | loopRecvReply : RaceLabel
  deriving DecidableEq, Repr

/-- One labelled step of the race model; `none` when the label is not
enabled in the given state. -/
def raceStep (l : RaceLabel) (s : RaceState) : Option RaceState :=
  match l with
  | RaceLabel.timerFires =>
      if s.watcherSt = WatcherSt.waiting then
        some { s with watcherSt := WatcherSt.firedBlocked }
      else none
  | RaceLabel.loopRecvTimeout =>
      if s.loopSt = LoopSt.selecting ∧ s.watcherSt = WatcherSt.firedBlocked
      then
        if s.pendingHasX then
          some { s with
            watcherSt := WatcherSt.exited
            pendingHasX := false
            completions :=
              s.completions ++ [Completion.fail commandTimedOutReason]
            loopSt := LoopSt.returnedDraining }
        else
          some { s with
            watcherSt := WatcherSt.exited
            cancellerInTable := false }
      else none
  | RaceLabel.loopRecvReply =>
      if s.loopSt = LoopSt.selecting ∧ s.replyQueued then
        if s.pendingHasX then
          if s.cancellerInTable then
            if s.watcherSt = WatcherSt.waiting then
              -- rendezvous: watcher receives the cancel, stops its
              -- timer and returns; the loop decodes and completes
              some { s with
                replyQueued := false
                pendingHasX := false
                cancellerInTable := false
                watcherSt := WatcherSt.exited
                completions := s.completions ++ [Completion.done] }
            else
              -- no goroutine is receiving on the unbuffered canceller:
              -- the send blocks the loop before cmd.Done() is reached
              some { s with
                replyQueued := false
                pendingHasX := false
                loopSt := LoopSt.blockedCancel }
          else
            some { s with
              replyQueued := false
              pendingHasX := false
              completions := s.completions ++ [Completion.done] }
        else
          -- unexpected message: logged, dropped
          some { s with replyQueued := false }
      else none

/-- Run a schedule: apply each label's step when it is enabled, leave
the state unchanged when it is not. -/
def raceRun : List RaceLabel → RaceState → RaceState
  | [], s => s
  | l :: rest, s =>
      match raceStep l s with
      | some s' => raceRun rest s'
      | none => raceRun rest s

/-- All scheduler labels of the race model. -/
def raceLabels : List RaceLabel :=
  [RaceLabel.timerFires, RaceLabel.loopRecvTimeout, RaceLabel.loopRecvReply]

/-- No label is enabled: neither goroutine can take another step. -/
def raceStuck (s : RaceState) : Bool :=
  raceLabels.all fun l => (raceStep l s).isNone

/-- Initial state: request X pending with its watcher armed and a reply
for X queued on `inbound`. -/
def raceInit : RaceState :=
  { loopSt := LoopSt.selecting
  , watcherSt := WatcherSt.waiting
  , pendingHasX := true
  , cancellerInTable := true
  , replyQueued := true
  , completions := [] }

/-- The schedule in which the watcher's timer fires just before the loop
selects the queued reply for X. -/
def raceStalled : RaceState :=
  raceRun [RaceLabel.timerFires, RaceLabel.loopRecvReply] raceInit

/-!
## Close / reConnect interaction

```go
func (r *Remote) Close() {
    r.shutdown = true
    close(r.outgoing)
    for _ = range r.Incoming {
    }
}

func (r *Remote) reConnect() {
    ticker := time.NewTicker(connReconnectInterval)
    defer ticker.Stop()
connectLoop:
    for {
        select {
        case command, ok := <-r.outgoing:
            if !ok {
                glog.Errorln("outgoing channel closed")
                return                     // Incoming is NOT closed here
            }
            command.Fail("ws: server disconnected")
        case <-ticker.C:
            ... dial; on success: r.ws = ws; go r.run(); break connectLoop
        }
    }
}
```

While the session is disconnected the only live goroutine of the session
is `reConnect`; `r.Incoming` can only ever be closed by a `run` loop's
teardown.  The interleaving of a `Close()` caller and the `reConnect`
goroutine is modelled as a labelled transition system.
-/

/-- State of the goroutine calling `Close()`. -/
inductive CloseSt where
  | notCalled : CloseSt
  /-- executed the flag set and `close(r.outgoing)`, now in the
  `for range r.Incoming` drain loop -/
  | drainingIncoming : CloseSt
  | returned : CloseSt
  deriving DecidableEq, Repr

/-- State of the `reConnect` goroutine. -/
inductive ReconnSt where
  /-- inside `connectLoop`, selecting -/
  | connectLoop : ReconnSt
  /-- took the `!ok` branch on the closed outgoing channel and returned -/
  | returnedOnClosed : ReconnSt
  /-- dial succeeded: spawned a fresh `run` and returned -/
  | reconnected : ReconnSt
  deriving DecidableEq, Repr

/-- Joint state of the `Close()` caller, the `reConnect` goroutine and
the channels they share. -/
structure CloseState where
  shutdown : Bool
  outgoingClosed : Bool
  incomingClosed : Bool
  closeSt : CloseSt
  reconnSt : ReconnSt
  deriving DecidableEq, Repr

/-- Scheduler choices in the close/reconnect model. -/
inductive CloseLabel where
  /-- the caller runs `Close()` up to its drain loop: sets the shutdown
  flag and closes `r.outgoing` -/
  | closeCall : CloseLabel
  /-- the caller's `for range r.Incoming` loop exits (requires the
  channel closed) and `Close()` returns -/
  | closeDrainDone : CloseLabel
  /-- `reConnect` selects `<-r.outgoing` on the closed channel, takes
  the `!ok` branch and returns without touching `r.Incoming` -/
  | reconnSeesClosed : CloseLabel
  /-- the reconnect ticker fires and the dial fails: stay in the loop -/
  | reconnDialFails : CloseLabel
  /-- the reconnect ticker fires and the dial succeeds: spawn a new
  `run` loop and leave `connectLoop` -/
  | reconnDialSucceeds : CloseLabel
  /-- the freshly spawned `run` loop observes the closed outgoing
  channel, returns, and its teardown closes `r.Incoming` (shutdown is
  set, so no further reconnect) -/
  | newRunTearsDown : CloseLabel
  deriving DecidableEq, Repr

/-- One labelled step of the close/reconnect model; `none` when the
label is not enabled. -/
def closeStep (l : CloseLabel) (s : CloseState) : Option CloseState :=
  match l with
  | CloseLabel.closeCall =>
      if s.closeSt = CloseSt.notCalled then
        some { s with
          shutdown := true
          outgoingClosed := true
          closeSt := CloseSt.drainingIncoming }
      else none
  | CloseLabel.closeDrainDone =>
      if s.closeSt = CloseSt.drainingIncoming ∧ s.incomingClosed then
        some { s with closeSt := CloseSt.returned }
      else none
  | CloseLabel.reconnSeesClosed =>
      if s.reconnSt = ReconnSt.connectLoop ∧ s.outgoingClosed then
        some { s with reconnSt := ReconnSt.returnedOnClosed }
      else none
  | CloseLabel.reconnDialFails =>
      if s.reconnSt = ReconnSt.connectLoop then some s else none
  | CloseLabel.reconnDialSucceeds =>
      if s.reconnSt = ReconnSt.connectLoop then
        some { s with reconnSt := ReconnSt.reconnected }
      else none
  | CloseLabel.newRunTearsDown =>
      if s.reconnSt = ReconnSt.reconnected ∧ s.outgoingClosed ∧ s.shutdown
      then some { s with incomingClosed := true }
      else none

/-- Run a schedule of the close/reconnect model. -/
def closeRun : List CloseLabel → CloseState → CloseState
  | [], s => s
  | l :: rest, s =>
      match closeStep l s with
      | some s' => closeRun rest s'
      | none => closeRun rest s

/-- All scheduler labels of the close/reconnect model. -/
def closeLabels : List CloseLabel :=
  [CloseLabel.closeCall, CloseLabel.closeDrainDone,
   CloseLabel.reconnSeesClosed, CloseLabel.reconnDialFails,
   CloseLabel.reconnDialSucceeds, CloseLabel.newRunTearsDown]

/-- No label is enabled: no goroutine of the session can make
progress. -/
def closeStuck (s : CloseState) : Bool :=
  closeLabels.all fun l => (closeStep l s).isNone

/-- Initial state: session disconnected, `reConnect` in its loop,
`Close()` not yet called. -/
def closeInit : CloseState :=
  { shutdown := false
  , outgoingClosed := false
  , incomingClosed := false
  , closeSt := CloseSt.notCalled
  , reconnSt := ReconnSt.connectLoop }

/-- The schedule in which `Close()` runs while disconnected and
`reConnect` then observes the closed outgoing channel. -/
def closeStalled : CloseState :=
  closeRun [CloseLabel.closeCall, CloseLabel.reconnSeesClosed] closeInit

/-!
## Theorems
-/

/-- C1: the spec claims that, for every Request submitted, exactly one
of Done/Fail is invoked exactly once regardless of the interleaving of
reply arrival, timeout firing and teardown.  The code violates this: in
the schedule where the watcher's timer fires just before the run loop
selects the queued reply for X, the loop removes X from the pending
table and then blocks forever in the unbuffered canceller send, so no
transition remains enabled and X receives neither `Done` nor `Fail` —
zero completions over its entire lifetime. -/
theorem exactly_once_violated_by_blocking_cancel :
    raceStalled.pendingHasX = false ∧
    raceStalled.completions = [] ∧
    raceStuck raceStalled = true := by decide

/-- C2: the spec claims that cancelling a request's timeout watcher
never stalls the arbitration loop, and that signalling a watcher that
has already fired is a safe no-op.  The code violates this: the
cancellation is a blocking send on the unbuffered `canceller` channel;
when the watcher has already fired (it is blocked sending on `timeout`
and no longer receives on `canceller`), the loop's send blocks forever
— the stalled state is reached by an explicit schedule and no label is
enabled in it. -/
theorem cancellation_signal_blocks_loop :
    raceStalled.loopSt = LoopSt.blockedCancel ∧
    raceStalled.watcherSt = WatcherSt.firedBlocked ∧
    raceStuck raceStalled = true := by decide

/-- C3: the spec claims `Close()` blocks until the Incoming channel is
closed by the arbitration loop and that, whenever it returns, all
internal concurrency has exited — including when called while the
session is disconnected inside the reconnect loop.  The code violates
the disconnected case: `reConnect` returns as soon as it observes the
closed outgoing channel without ever closing `r.Incoming`, so the
`Close()` caller is left draining a channel nobody will close; in the
resulting state no goroutine of the session can take a step and
`Close()` has not returned. -/
theorem close_blocks_forever_during_reconnect :
    closeStalled.closeSt = CloseSt.drainingIncoming ∧
    closeStalled.reconnSt = ReconnSt.returnedOnClosed ∧
    closeStalled.incomingClosed = false ∧
    closeStuck closeStalled = true := by decide

/-- Failing every pending entry produces exactly the pending ids, each
paired with the disconnect failure, in table order. -/
theorem failAllPending_eq_map (l : List Nat) :
    failAllPending l =
      l.map fun id => (id, Completion.fail serverDisconnectedReason) := by
  induction l with
  | nil => rfl
  | cons a t ih => simp [failAllPending, ih]

/-- Draining discards every queued inbound frame. -/
theorem drainInbound_eq_length (l : List InMsg) :
    drainInbound l = l.length := by
  induction l with
  | nil => rfl
  | cons a t ih => simp [drainInbound, ih, Nat.add_comm]

/-- C4: the deferred teardown of `run` closes the outbound handoff
channel, fails every entry remaining in the pending table with the
disconnect reason (so every in-flight request at disconnect resolves,
none left unresolved), drains the whole inbound queue, and then
schedules a reconnect exactly when reconnection is enabled and the
session was not explicitly closed — otherwise it closes the Incoming
channel. -/
theorem runTeardown_spec (pending : List Nat) (inQ : List InMsg)
    (reConn shutdown : Bool) :
    (runTeardown pending inQ reConn shutdown).outboundClosed = true ∧
    (runTeardown pending inQ reConn shutdown).completions =
      pending.map (fun id => (id, Completion.fail serverDisconnectedReason)) ∧
    (∀ id ∈ pending,
      (id, Completion.fail serverDisconnectedReason) ∈
        (runTeardown pending inQ reConn shutdown).completions) ∧
    (runTeardown pending inQ reConn shutdown).drained = inQ.length ∧
    ((runTeardown pending inQ reConn shutdown).next =
        TeardownNext.scheduleReconnect ↔ (reConn = true ∧ shutdown = false)) := by
  refine ⟨rfl, failAllPending_eq_map pending, ?_, drainInbound_eq_length inQ, ?_⟩
  · intro id hid
    have : (id, Completion.fail serverDisconnectedReason) ∈
        pending.map fun i => (i, Completion.fail serverDisconnectedReason) :=
      List.mem_map.mpr ⟨id, hid, rfl⟩
    simpa [runTeardown, failAllPending_eq_map] using this
  · cases reConn <;> cases shutdown <;> simp [runTeardown]

/-- Witness for C4 at a concrete teardown. -/
theorem runTeardown_spec_witness :
    (runTeardown [1, 2] [] true false).completions =
      [(1, Completion.fail serverDisconnectedReason),
       (2, Completion.fail serverDisconnectedReason)] ∧
    (runTeardown [1, 2] [] true false).next =
      TeardownNext.scheduleReconnect :=
  ⟨(runTeardown_spec [1, 2] [] true false).2.1,
   ((runTeardown_spec [1, 2] [] true false).2.2.2.2).mpr ⟨rfl, rfl⟩⟩

/-- C5: when a timeout fires for id X while X is still pending, X is
removed from the pending table, completed with exactly the timeout
failure, and the loop returns into teardown (Draining); when X is no
longer pending, the stale canceller-table entry is discarded, no
completion is invoked, the pending table is untouched and the loop
remains Running — a timeout firing after the reply was processed is a
no-op. -/
theorem handleTimeout_spec (s : LoopState) (id : Nat)
    (hnd : s.pending.Nodup) :
    (id ∈ s.pending →
      (handleTimeout s id).2.2 = LoopStatus.draining ∧
      (handleTimeout s id).2.1 = [Completion.fail commandTimedOutReason] ∧
      id ∉ (handleTimeout s id).1.pending ∧
      (handleTimeout s id).1.timeoutCancellers = s.timeoutCancellers) ∧
    (id ∉ s.pending →
      (handleTimeout s id).2.2 = LoopStatus.running ∧
      (handleTimeout s id).2.1 = [] ∧
      (handleTimeout s id).1.pending = s.pending ∧
      (handleTimeout s id).1.timeoutCancellers =
        s.timeoutCancellers.erase id) := by
  constructor
  · intro hmem
    refine ⟨?_, ?_, ?_, ?_⟩ <;> simp [handleTimeout, hmem, hnd.not_mem_erase]
  · intro hmem
    refine ⟨?_, ?_, ?_, ?_⟩ <;> simp [handleTimeout, hmem]

/-- Witness for C5: timeout firing for pending id 5. -/
theorem handleTimeout_spec_witness :
    (handleTimeout ⟨[5, 7], [5, 7]⟩ 5).2.2 = LoopStatus.draining ∧
    (handleTimeout ⟨[5, 7], [5, 7]⟩ 5).2.1 =
      [Completion.fail commandTimedOutReason] ∧
    5 ∉ (handleTimeout ⟨[5, 7], [5, 7]⟩ 5).1.pending ∧
    (handleTimeout ⟨[5, 7], [5, 7]⟩ 5).1.timeoutCancellers = [5, 7] :=
  (handleTimeout_spec ⟨[5, 7], [5, 7]⟩ 5 (by decide)).1 (by decide)

/-- C6: routing of an inbound envelope that parses is decided solely by
whether its `type` is a registered stream type.  If it is, the loop
never touches the pending table (even when a pending entry shares the
envelope's id): the state is unchanged, the frame is forwarded to
Incoming when its payload decodes (dropped with a logged decode error
otherwise), and the loop keeps running.  If it is not, the id is looked
up in the pending table, and a missing entry is logged as unexpected
and dropped with the loop still running and the state unchanged — not
fatal. -/
theorem handleInbound_routing_spec (registry : List String)
    (s : LoopState) (m : InMsg) (henv : m.envOk = true) :
    (m.type ∈ registry →
      (handleInbound registry s m).1 = s ∧
      ((handleInbound registry s m).2.1 = InboundOutcome.forwardedIncoming ∨
       (handleInbound registry s m).2.1 =
         InboundOutcome.droppedStreamDecodeError) ∧
      (m.typedOk = true →
        (handleInbound registry s m).2.1 =
          InboundOutcome.forwardedIncoming) ∧
      (handleInbound registry s m).2.2 = LoopStatus.running) ∧
    (m.type ∉ registry → m.id ∉ s.pending →
      (handleInbound registry s m).1 = s ∧
      (handleInbound registry s m).2.1 =
        InboundOutcome.droppedUnexpected m.id ∧
      (handleInbound registry s m).2.2 = LoopStatus.running) := by
  constructor
  · intro hreg
    cases htyped : m.typedOk <;>
      simp [handleInbound, henv, hreg, htyped]
  · intro hreg hpend
    refine ⟨?_, ?_, ?_⟩ <;> simp [handleInbound, henv, hreg, hpend]

/-- Witness for C6: a registered stream type whose id collides with a
pending entry is still forwarded with the tables untouched, and an
unregistered type with no pending entry is dropped as unexpected. -/
theorem handleInbound_routing_spec_witness :
    ((handleInbound ["ledgerClosed"] ⟨[3], [3]⟩
        ⟨true, "ledgerClosed", 3, true⟩).2.1 =
      InboundOutcome.forwardedIncoming ∧
     (handleInbound ["ledgerClosed"] ⟨[3], [3]⟩
        ⟨true, "ledgerClosed", 3, true⟩).1 = ⟨[3], [3]⟩) ∧
    (handleInbound ["ledgerClosed"] ⟨[3], [3]⟩
        ⟨true, "response", 9, true⟩).2.1 =
      InboundOutcome.droppedUnexpected 9 :=
  ⟨⟨((handleInbound_routing_spec ["ledgerClosed"] ⟨[3], [3]⟩
        ⟨true, "ledgerClosed", 3, true⟩ rfl).1 (by simp)).2.2.1 rfl,
    ((handleInbound_routing_spec ["ledgerClosed"] ⟨[3], [3]⟩
        ⟨true, "ledgerClosed", 3, true⟩ rfl).1 (by simp)).1⟩,
   ((handleInbound_routing_spec ["ledgerClosed"] ⟨[3], [3]⟩
        ⟨true, "response", 9, true⟩ rfl).2 (by simp) (by simp)).2.1⟩

/-- C7 counterexample: the claim that the write pump sends a best-effort
close frame on termination by any path is false — a transport send
failure on an outbound envelope terminates the pump with no close frame
written (the same holds for a ping send failure). -/
theorem writePump_no_close_frame_on_send_failure :
    writePump [WPEvent.outMsg true false] =
      ([], some WPTermination.sendFailure) ∧
    Frame.close ∉ (writePump [WPEvent.outMsg true false]).1 ∧
    writePump [WPEvent.tick false] = ([], some WPTermination.pingFailure) ∧
    Frame.close ∉ (writePump [WPEvent.tick false]).1 := by decide

/-- C7 amended: the write pump sends its close frame exactly when it
terminates because its outbound channel was closed; termination by an
envelope or ping send failure writes no close frame. -/
theorem writePump_close_frame_iff_channelClosed (evs : List WPEvent)
    (t : WPTermination) (h : (writePump evs).2 = some t) :
    (Frame.close ∈ (writePump evs).1 ↔ t = WPTermination.channelClosed) := by
  induction evs with
  | nil => simp [writePump] at h
  | cons e rest ih =>
    cases e with
    | outClosed =>
        simp [writePump] at h ⊢
        simp [← h]
    | outMsg marshalOk sendOk =>
        cases marshalOk with
        | false =>
            simp only [writePump, if_pos rfl] at h ⊢
            exact ih h
        | true =>
            cases sendOk with
            | false =>
                simp [writePump] at h ⊢
                simp [← h]
            | true =>
                simp only [writePump] at h ⊢
                simp only [Bool.true_eq_false, if_false, if_true] at h ⊢
                simpa using ih h
    | tick sendOk =>
        cases sendOk with
        | false =>
            simp [writePump] at h ⊢
            simp [← h]
        | true =>
            simp only [writePump, if_true] at h ⊢
            simpa using ih h

/-- Witness for the amended C7: termination via channel closure does
write the close frame. -/
theorem writePump_close_frame_iff_witness :
    Frame.close ∈ (writePump [WPEvent.outClosed]).1 ↔
      WPTermination.channelClosed = WPTermination.channelClosed :=
  writePump_close_frame_iff_channelClosed [WPEvent.outClosed]
    WPTermination.channelClosed rfl

/-- C8: a JSON-marshal failure of an outbound envelope is logged and the
envelope skipped — the pump behaves exactly as if the event had not
occurred, regardless of what the doomed send would have done — whereas
a transport send failure terminates the pump at once. -/
theorem writePump_marshal_skips_send_terminates (rest : List WPEvent)
    (sendOk : Bool) :
    writePump (WPEvent.outMsg false sendOk :: rest) = writePump rest ∧
    writePump (WPEvent.outMsg true false :: rest) =
      ([], some WPTermination.sendFailure) := by
  constructor <;> simp [writePump]

/-- Helper for C9: a run whose pages before the last all succeed with a
continuation marker and whose last page succeeds without one yields the
concatenation of all pages in order, with one request per page. -/
theorem accountTx_success_run (body : List AccountTxPage)
    (last : AccountTxPage)
    (hbody : ∀ p ∈ body, p.err = false ∧ p.marker ≠ none)
    (herr : last.err = false) (hmark : last.marker = none) :
    accountTx (body ++ [last]) =
      some (((body ++ [last]).map AccountTxPage.transactions).flatten,
        body.length + 1) := by
  induction body with
  | nil => simp [accountTx, herr, hmark]
  | cons p rest ih =>
    obtain ⟨hperr, hpmark⟩ := hbody p (by simp)
    have hrest : ∀ q ∈ rest, q.err = false ∧ q.marker ≠ none :=
      fun q hq => hbody q (by simp [hq])
    cases hm : p.marker with
    | none => exact absurd hm hpmark
    | some m =>
        simp [accountTx, hperr, hm, ih hrest, Nat.add_comm, Nat.add_assoc]

/-- Helper for C9: a command failure on any page stops the driver (and
hence closes the channel) after the pages already yielded. -/
theorem accountTx_failure_run (body : List AccountTxPage)
    (bad : AccountTxPage) (rest : List AccountTxPage)
    (hbody : ∀ p ∈ body, p.err = false ∧ p.marker ≠ none)
    (hbad : bad.err = true) :
    accountTx (body ++ bad :: rest) =
      some ((body.map AccountTxPage.transactions).flatten, body.length + 1) := by
  induction body with
  | nil => simp [accountTx, hbad]
  | cons p prefix2 ih =>
    obtain ⟨hperr, hpmark⟩ := hbody p (by simp)
    have hpre : ∀ q ∈ prefix2, q.err = false ∧ q.marker ≠ none :=
      fun q hq => hbody q (by simp [hq])
    cases hm : p.marker with
    | none => exact absurd hm hpmark
    | some m =>
        simp [accountTx, hperr, hm, ih hpre, Nat.add_comm, Nat.add_assoc]

/-- C9: for a streaming account-transactions fetch whose pages 1..k-1
each complete with a continuation marker and whose page k completes
without one, the driver submits exactly k requests, delivers the
concatenation of all pages' transactions in page order, and returns
(closing the channel via its defer); a command failure on any page also
ends the run — the driver returns, closing the channel, after one more
request than the successfully yielded pages. -/
theorem accountTx_pagination_spec :
    (∀ (body : List AccountTxPage) (last : AccountTxPage),
      (∀ p ∈ body, p.err = false ∧ p.marker ≠ none) →
      last.err = false → last.marker = none →
      accountTx (body ++ [last]) =
        some (((body ++ [last]).map AccountTxPage.transactions).flatten,
          body.length + 1)) ∧
    (∀ (body : List AccountTxPage) (bad : AccountTxPage)
        (rest : List AccountTxPage),
      (∀ p ∈ body, p.err = false ∧ p.marker ≠ none) →
      bad.err = true →
      accountTx (body ++ bad :: rest) =
        some ((body.map AccountTxPage.transactions).flatten,
          body.length + 1)) :=
  ⟨fun body last hbody herr hmark =>
      accountTx_success_run body last hbody herr hmark,
   fun body bad rest hbody hbad =>
      accountTx_failure_run body bad rest hbody hbad⟩

/-- Witness for C9: a two-page fetch (marker on page 1, none on page 2)
submits two requests and yields the pages' transactions in order. -/
theorem accountTx_pagination_witness :
    accountTx [AccountTxPage.mk false [1, 2] (some 0),
               AccountTxPage.mk false [3] none] = some ([1, 2, 3], 2) := by
  have h := accountTx_pagination_spec.1 [AccountTxPage.mk false [1, 2] (some 0)]
    (AccountTxPage.mk false [3] none) (by decide) rfl rfl
  simpa using h

/-- C10 counterexample: the claim that `SubmitBatch` returns a non-nil
error only when serialization fails before any command is enqueued is
false — with a first transaction that serializes and a second that does
not, the error return happens with one command already enqueued. -/
theorem SubmitBatch_error_after_enqueue :
    SubmitBatch [BatchTx.mk true, BatchTx.mk false] [] =
      SubmitBatchResult.marshalError 1 ∧ (1 : Nat) ≠ 0 := by decide

/-- Helper for C10: if every transaction serializes, the enqueue loop
never takes the error return. -/
theorem submitBatchEnqueue_none (txs : List BatchTx)
    (h : ∀ p ∈ txs, p.rawOk = true) :
    ∀ k, submitBatchEnqueue txs k = none := by
  induction txs with
  | nil => intro k; rfl
  | cons t rest ih =>
    intro k
    have ht := h t (by simp)
    have hrest : ∀ p ∈ rest, p.rawOk = true := fun p hp => h p (by simp [hp])
    simp [submitBatchEnqueue, ht, ih hrest]

/-- Helper for C10: serialization failing first at position
`pre.length` makes the enqueue loop return with exactly the commands
for `pre` already enqueued. -/
theorem submitBatchEnqueue_first_failure (pre : List BatchTx)
    (t : BatchTx) (post : List BatchTx)
    (hpre : ∀ q ∈ pre, q.rawOk = true) (ht : t.rawOk = false) :
    ∀ k, submitBatchEnqueue (pre ++ t :: post) k = some (k + pre.length) := by
  induction pre with
  | nil => intro k; simp [submitBatchEnqueue, ht]
  | cons q pre2 ih =>
    intro k
    have hq := hpre q (by simp)
    have hpre2 : ∀ q2 ∈ pre2, q2.rawOk = true :=
      fun q2 hq2 => hpre q2 (by simp [hq2])
    simp [submitBatchEnqueue, hq, ih hpre2, Nat.add_comm, Nat.add_assoc,
      Nat.add_left_comm]

/-- Helper for C10: the enqueue loop returns an error only when some
transaction fails to serialize. -/
theorem submitBatchEnqueue_some_exists (txs : List BatchTx) :
    ∀ k n, submitBatchEnqueue txs k = some n →
      ∃ t ∈ txs, t.rawOk = false := by
  induction txs with
  | nil => intro k n h; exact absurd h (by simp [submitBatchEnqueue])
  | cons t rest ih =>
    intro k n h
    cases hr : t.rawOk with
    | false => exact ⟨t, by simp, hr⟩
    | true =>
        simp [submitBatchEnqueue, hr] at h
        obtain ⟨u, hu, hru⟩ := ih (k + 1) n h
        exact ⟨u, by simp [hu], hru⟩

/-- C10 amended: `SubmitBatch` returns a non-nil error exactly when
serializing one of the input transactions fails, and it does so with
the commands for all transactions preceding the first failing one
already enqueued; when every transaction serializes it returns a nil
error with the results slice mapping each command's completion to its
`Result` field — in particular a command that completed with `Fail`
leaves a nil entry at its index. -/
theorem SubmitBatch_spec (txs : List BatchTx)
    (completions : List Completion) :
    ((∀ p ∈ txs, p.rawOk = true) →
      SubmitBatch txs completions =
        SubmitBatchResult.ok (completions.map resultOf)) ∧
    (∀ (pre : List BatchTx) (t : BatchTx) (post : List BatchTx),
      txs = pre ++ t :: post → (∀ q ∈ pre, q.rawOk = true) →
      t.rawOk = false →
      SubmitBatch txs completions =
        SubmitBatchResult.marshalError pre.length) ∧
    (∀ n, SubmitBatch txs completions = SubmitBatchResult.marshalError n →
      ∃ t ∈ txs, t.rawOk = false) ∧
    (∀ (i : Nat) (reason : String),
      completions[i]? = some (Completion.fail reason) →
      (completions.map resultOf)[i]? = some none) := by
  refine ⟨?_, ?_, ?_, ?_⟩
  · intro hall
    simp [SubmitBatch, submitBatchEnqueue_none txs hall 0]
  · intro pre t post heq hpre ht
    subst heq
    simp [SubmitBatch, submitBatchEnqueue_first_failure pre t post hpre ht 0]
  · intro n h
    cases he : submitBatchEnqueue txs 0 with
    | none => simp [SubmitBatch, he] at h
    | some m => exact submitBatchEnqueue_some_exists txs 0 m he
  · intro i reason h
    simp [List.getElem?_map, h, resultOf]

/-- Witness for the amended C10: a batch whose single transaction
serializes but whose command is failed returns a nil error with a nil
results entry. -/
theorem SubmitBatch_spec_witness :
    SubmitBatch [BatchTx.mk true] [Completion.fail commandTimedOutReason] =
      SubmitBatchResult.ok [none] :=
  (SubmitBatch_spec [BatchTx.mk true]
    [Completion.fail commandTimedOutReason]).1 (by decide)

end Websockets
